import Mathlib

/-!
# Verification of the UnivaPay POC payment flow

This file gives a shallow embedding of the UnivaPay POC repository:

* the backend reconciliation engine (Token Ledger, Status Merge Policy,
  Webhook Ingestion) as described in the design document, since the Flask
  backend sources are not part of the frontend tree that ships here;
* the Next.js frontend handlers that are present as source files
  (one-time payment submission, subscription submission, the 3DS return
  page, and the authenticated POST helper).

Timestamps are modelled as natural numbers, JavaScript numbers as an
option of rationals (`nan` or a rational value), and stores as
association lists, so that every definition is executable.
-/

set_option maxRecDepth 2048

/-! ## Status Merge Policy (section 4.5 of the design document) -/

/-- Modelled from the spec: the payment kind of a record, `one_time` for a
charge and `subscription` for a recurring plan (data model, section 3). -/
inductive PKind
  | one_time
  | subscription
deriving DecidableEq, Repr

/-- Modelled from the spec: the provider status vocabulary of a
ProviderPayment, `pending | successful | failed | current | suspended |
canceled` (data model, section 3). -/
inductive PStatus
  | pending
  | successful
  | failed
  | current
  | suspended
  | canceled
deriving DecidableEq, Repr

/-- Modelled from the spec: terminal statuses are `successful`, `failed`
and `canceled` (section 4.5). -/
def isTerminal : PStatus → Bool
  | .successful => true
  | .failed => true
  | .canceled => true
  | _ => false

/-- Modelled from the spec: the subscription lifecycle statuses, the ones a
provider-initiated subscription-state transition may carry (section 4.5
names `current → suspended` as the example; `canceled` also belongs to the
subscription lifecycle per the glossary). -/
def isSubscriptionState : PStatus → Bool
  | .current => true
  | .suspended => true
  | .canceled => true
  | _ => false

/-- Modelled from the spec: a ProviderPayment record, keeping the fields
the merge policy reads and writes: the payment kind, the provider status,
`provider_updated_at`, and the last-seen raw payload (section 3). -/
structure ProviderPayment where
  kind : PKind
  status : PStatus
  provider_updated_at : Nat
  raw_payload : String
deriving DecidableEq, Repr

/-- Modelled from the spec: the argument triple of
`apply(providerId, newStatus, newUpdatedAt, rawPayload)` that concerns one
record (section 4.5). -/
structure MergeUpdate where
  newStatus : PStatus
  newUpdatedAt : Nat
  rawPayload : String
deriving DecidableEq, Repr

/-- Modelled from the spec: the outcome of the merge policy,
`Applied | Ignored(StaleUpdate)` (section 4.5). -/
inductive ApplyResult
  | applied
  | ignoredStale
deriving DecidableEq, Repr

/-- Modelled from the spec: the merge condition of section 4.5. An update
may be applied only if `newUpdatedAt` is strictly newer than the stored
`provider_updated_at`, or the stored status is non-terminal and the
incoming status is terminal with an equal-or-newer timestamp; and, per the
terminal-freeze sentence of the same section, an update over a stored
terminal status is only accepted as a provider-initiated
subscription-state transition, so a one-time charge terminal status is
permanently frozen. -/
def mergeOk (rec : ProviderPayment) (u : MergeUpdate) : Bool :=
  (decide (rec.provider_updated_at < u.newUpdatedAt) ||
      (!(isTerminal rec.status) && isTerminal u.newStatus &&
        decide (rec.provider_updated_at ≤ u.newUpdatedAt))) &&
    (!(isTerminal rec.status) ||
      (decide (rec.kind = PKind.subscription) && isSubscriptionState u.newStatus))

/-- Modelled from the spec: `apply` of the Status Merge Policy
(section 4.5). On success it overwrites the stored status, timestamp and
raw payload; otherwise it returns `Ignored(StaleUpdate)` and leaves the
record unchanged. Both the webhook path and the poller path funnel every
status update through this one function. -/
def applyUpdate (rec : ProviderPayment) (u : MergeUpdate) :
    ApplyResult × ProviderPayment :=
  if mergeOk rec u then
    (.applied,
      { rec with
        status := u.newStatus
        provider_updated_at := u.newUpdatedAt
        raw_payload := u.rawPayload })
  else
    (.ignoredStale, rec)

/-- A sequence of updates (webhook or poll results, in arrival order)
applied through the merge policy. -/
def applyList (rec : ProviderPayment) (us : List MergeUpdate) : ProviderPayment :=
  us.foldl (fun r u => (applyUpdate r u).2) rec

/-! Concrete records used by the counterexamples below. -/

/-- A one-time charge record already in the terminal status `successful`
with `provider_updated_at = 5`. -/
def cexRec : ProviderPayment := ⟨.one_time, .successful, 5, "p"⟩

/-- An incoming `pending` update with the strictly newer timestamp 10. -/
def cexUpd : MergeUpdate := ⟨.pending, 10, "q"⟩

/-- C1 (counterexample): the stated rule is not sufficient. For the
one-time record frozen in `successful` at timestamp 5, an incoming
`pending` update at the strictly newer timestamp 10 satisfies the stated
condition, yet `apply` returns `Ignored(StaleUpdate)` and leaves the
record unchanged, because the same section of the design document freezes
a one-time charge terminal status permanently. -/
theorem applyUpdate_rule_not_sufficient :
    applyUpdate cexRec cexUpd = (.ignoredStale, cexRec) ∧
      cexRec.provider_updated_at < cexUpd.newUpdatedAt := by
  decide

/-- C1 (amended): `apply` returns `Applied` and overwrites the stored
status, timestamp and raw payload exactly when the stated timestamp rule
holds AND, in case the stored status is terminal, the record is a
subscription and the incoming status is a subscription-lifecycle status;
in every other case it returns `Ignored(StaleUpdate)` and leaves the
record unchanged. -/
theorem applyUpdate_characterization (rec : ProviderPayment) (u : MergeUpdate) :
    (applyUpdate rec u =
        (.applied,
          { rec with
            status := u.newStatus
            provider_updated_at := u.newUpdatedAt
            raw_payload := u.rawPayload }) ∨
      applyUpdate rec u = (.ignoredStale, rec)) ∧
    (applyUpdate rec u =
        (.applied,
          { rec with
            status := u.newStatus
            provider_updated_at := u.newUpdatedAt
            raw_payload := u.rawPayload }) ↔
      ((rec.provider_updated_at < u.newUpdatedAt ∨
          (isTerminal rec.status = false ∧ isTerminal u.newStatus = true ∧
            rec.provider_updated_at ≤ u.newUpdatedAt)) ∧
        (isTerminal rec.status = true →
          rec.kind = PKind.subscription ∧ isSubscriptionState u.newStatus = true))) := by
  constructor
  · by_cases h : mergeOk rec u
    · left
      simp [applyUpdate, h]
    · right
      simp [applyUpdate, h]
  · constructor
    · intro h
      by_cases hm : mergeOk rec u
      · have hm' := hm
        simp only [mergeOk, Bool.and_eq_true, Bool.or_eq_true, Bool.not_eq_true',
          Bool.and_eq_true, decide_eq_true_eq] at hm'
        obtain ⟨h1, h2⟩ := hm'
        constructor
        · rcases h1 with h1 | h1
          · exact Or.inl h1
          · exact Or.inr ⟨h1.1.1, h1.1.2, h1.2⟩
        · intro ht
          rcases h2 with h2 | h2
          · rw [ht] at h2; cases h2
          · exact ⟨h2.1, h2.2⟩
      · exfalso
        simp [applyUpdate, hm] at h
    · intro h
      have hm : mergeOk rec u = true := by
        simp only [mergeOk, Bool.and_eq_true, Bool.or_eq_true, Bool.not_eq_true',
          decide_eq_true_eq]
        constructor
        · rcases h.1 with h1 | h1
          · exact Or.inl h1
          · exact Or.inr ⟨⟨h1.1, h1.2.1⟩, h1.2.2⟩
        · by_cases ht : isTerminal rec.status = true
          · exact Or.inr ⟨(h.2 ht).1, (h.2 ht).2⟩
          · exact Or.inl (by simp at ht; exact ht)
      simp [applyUpdate, hm]

/-- C1 amended witness: a concrete stale subscription transition. The
subscription record is `canceled` at timestamp 4 and receives a
`suspended` update at timestamp 7; the characterization yields
`Applied` with the overwritten record. -/
theorem applyUpdate_characterization_holds :
    applyUpdate ⟨.subscription, .canceled, 4, "a"⟩ ⟨.suspended, 7, "b"⟩ =
      (.applied, ⟨.subscription, .suspended, 7, "b"⟩) :=
  (applyUpdate_characterization ⟨.subscription, .canceled, 4, "a"⟩
      ⟨.suspended, 7, "b"⟩).2.mpr (by decide)

/-- C2: across any single update and any sequence of updates applied
through the Status Merge Policy (this is the one code path both the
webhook ingestion and the poller use), the stored `provider_updated_at`
never decreases. -/
theorem provider_updated_at_monotone (rec : ProviderPayment) :
    (∀ u : MergeUpdate,
        rec.provider_updated_at ≤ ((applyUpdate rec u).2).provider_updated_at) ∧
    (∀ us : List MergeUpdate,
        rec.provider_updated_at ≤ (applyList rec us).provider_updated_at) := by
  have step : ∀ (r : ProviderPayment) (u : MergeUpdate),
      r.provider_updated_at ≤ ((applyUpdate r u).2).provider_updated_at := by
    intro r u
    by_cases h : mergeOk r u
    · have h' := h
      simp only [mergeOk, Bool.and_eq_true, Bool.or_eq_true, Bool.not_eq_true',
        decide_eq_true_eq] at h'
      rcases h'.1 with h1 | h1
      · simp [applyUpdate, h]
        omega
      · simp [applyUpdate, h]
        exact h1.2
    · simp [applyUpdate, h]
  refine ⟨step rec, ?_⟩
  intro us
  induction us generalizing rec with
  | nil => simp [applyList]
  | cons u us ih =>
      calc rec.provider_updated_at
          ≤ ((applyUpdate rec u).2).provider_updated_at := step rec u
        _ ≤ (applyList ((applyUpdate rec u).2) us).provider_updated_at :=
            ih ((applyUpdate rec u).2)
        _ = (applyList rec (u :: us)).provider_updated_at := by
            simp [applyList]

/-- C3: once a one-time charge record carries `successful` or `failed`,
no sequence of further updates applied through the Status Merge Policy
changes its status (nor any other field): the terminal status of a
one-time charge is permanently frozen. -/
theorem one_time_terminal_frozen (rec : ProviderPayment)
    (hk : rec.kind = PKind.one_time)
    (hs : rec.status = .successful ∨ rec.status = .failed)
    (us : List MergeUpdate) :
    applyList rec us = rec := by
  induction us with
  | nil => simp [applyList]
  | cons u us ih =>
      have hterm : isTerminal rec.status = true := by
        rcases hs with h | h <;> simp [h, isTerminal]
      have hno : mergeOk rec u = false := by
        simp [mergeOk, hterm, hk]
      have hstep : applyUpdate rec u = (.ignoredStale, rec) := by
        simp [applyUpdate, hno]
      show applyList ((applyUpdate rec u).2) us = rec
      rw [hstep]
      exact ih

/-- C3 witness: a concrete frozen one-time charge. Starting `successful`
at timestamp 5, a later `pending` update and a later `failed` update are
both ignored. -/
theorem one_time_terminal_frozen_holds :
    applyList ⟨.one_time, .successful, 5, "p"⟩ [⟨.pending, 10, "x"⟩, ⟨.failed, 20, "y"⟩] =
      ⟨.one_time, .successful, 5, "p"⟩ :=
  one_time_terminal_frozen ⟨.one_time, .successful, 5, "p"⟩ rfl (Or.inl rfl) _

/-- The initial pending record used by the commutativity counterexample. -/
def cexRec0 : ProviderPayment := ⟨.one_time, .pending, 0, ""⟩

/-- A terminal `successful` update at timestamp 5. -/
def cexU1 : MergeUpdate := ⟨.successful, 5, "a"⟩

/-- A non-terminal `pending` update at the later timestamp 10. -/
def cexU2 : MergeUpdate := ⟨.pending, 10, "b"⟩

/-- C4 (counterexample): the merge policy is not commutative over update
sets. Applying the set of updates, a `successful` at timestamp 5 and a
`pending` at timestamp 10, to a pending one-time record in the two
possible orders yields different final statuses (`successful` versus
`pending`), so the final status does not always equal the status of the
update with the latest `provider_updated_at`. -/
theorem merge_not_commutative :
    (applyList cexRec0 [cexU1, cexU2]).status ≠
      (applyList cexRec0 [cexU2, cexU1]).status := by
  decide

/-- The later of two updates by timestamp, keeping the first on a tie. -/
def laterUpd (a b : MergeUpdate) : MergeUpdate :=
  if a.newUpdatedAt < b.newUpdatedAt then b else a

/-- The update with the latest timestamp among `m` and the elements of a
list, folding with `laterUpd`. -/
def maxUpd (m : MergeUpdate) (us : List MergeUpdate) : MergeUpdate :=
  us.foldl laterUpd m

lemma maxUpd_mem (m : MergeUpdate) (us : List MergeUpdate) :
    maxUpd m us = m ∨ maxUpd m us ∈ us := by
  induction us generalizing m with
  | nil => left; rfl
  | cons u us ih =>
      have hstep : maxUpd m (u :: us) = maxUpd (laterUpd m u) us := rfl
      rcases ih (laterUpd m u) with h | h
      · rw [hstep, h]
        unfold laterUpd
        by_cases hc : m.newUpdatedAt < u.newUpdatedAt
        · rw [if_pos hc]
          right
          exact List.mem_cons_self u us
        · rw [if_neg hc]
          left
          rfl
      · rw [hstep]
        right
        exact List.mem_cons_of_mem u h

lemma maxUpd_ge (m : MergeUpdate) (us : List MergeUpdate) :
    m.newUpdatedAt ≤ (maxUpd m us).newUpdatedAt ∧
      ∀ v ∈ us, v.newUpdatedAt ≤ (maxUpd m us).newUpdatedAt := by
  induction us generalizing m with
  | nil => exact ⟨le_refl _, by intro v hv; cases hv⟩
  | cons u us ih =>
      have step : maxUpd m (u :: us) = maxUpd (laterUpd m u) us := rfl
      have hm : m.newUpdatedAt ≤ (laterUpd m u).newUpdatedAt := by
        unfold laterUpd; split <;> omega
      have hu : u.newUpdatedAt ≤ (laterUpd m u).newUpdatedAt := by
        unfold laterUpd; split <;> omega
      obtain ⟨ih1, ih2⟩ := ih (laterUpd m u)
      refine ⟨by rw [step]; omega, ?_⟩
      intro v hv
      rw [step]
      rcases List.mem_cons.mp hv with h | h
      · subst h; omega
      · exact ih2 v h

/-- The state invariant of the last-writer-wins proof: walking any list of
updates `l` drawn from a universe `S` with pairwise distinct timestamps in
which every terminal update carries the greatest timestamp, from a state
that coincides with some member `m` of `S`, lands on the state of the
latest-timestamped update among `m` and `l`. -/
lemma applyList_tracks_max (S : List MergeUpdate)
    (hdist : ∀ u ∈ S, ∀ v ∈ S, u.newUpdatedAt = v.newUpdatedAt → u = v)
    (hmax : ∀ u ∈ S, ∀ v ∈ S, isTerminal u.newStatus = true →
      v.newUpdatedAt ≤ u.newUpdatedAt) :
    ∀ l : List MergeUpdate, (∀ u ∈ l, u ∈ S) →
      ∀ (s : ProviderPayment) (m : MergeUpdate), m ∈ S →
        s.status = m.newStatus → s.provider_updated_at = m.newUpdatedAt →
        (applyList s l).status = (maxUpd m l).newStatus ∧
          (applyList s l).provider_updated_at = (maxUpd m l).newUpdatedAt := by
  intro l
  induction l with
  | nil =>
      intro _ s m _ hst hts
      exact ⟨hst, hts⟩
  | cons u l ih =>
      intro hl s m hmS hst hts
      have huS : u ∈ S := hl u (List.mem_cons_self u l)
      have hl' : ∀ v ∈ l, v ∈ S := fun v hv => hl v (List.mem_cons_of_mem u hv)
      have hstep : applyList s (u :: l) = applyList ((applyUpdate s u).2) l := rfl
      have hfold : maxUpd m (u :: l) = maxUpd (laterUpd m u) l := rfl
      rcases Nat.lt_trichotomy m.newUpdatedAt u.newUpdatedAt with hlt | heq | hgt
      · -- the incoming update is strictly newer: it is applied
        have hmnt : isTerminal m.newStatus = false := by
          by_contra hcon
          have : isTerminal m.newStatus = true := by
            cases h : isTerminal m.newStatus
            · exact absurd h hcon
            · rfl
          have := hmax m hmS u huS this
          omega
        have hok : mergeOk s u = true := by
          simp only [mergeOk, Bool.and_eq_true, Bool.or_eq_true, decide_eq_true_eq]
          constructor
          · left; omega
          · left
            simp [hst, hmnt]
        have h2 : (applyUpdate s u).2 =
            { s with
              status := u.newStatus
              provider_updated_at := u.newUpdatedAt
              raw_payload := u.rawPayload } := by
          simp [applyUpdate, hok]
        have hlat : laterUpd m u = u := by
          unfold laterUpd
          simp [hlt]
        rw [hstep, hfold, hlat, h2]
        exact ih hl' _ u huS rfl rfl
      · -- equal timestamps: the update is the tracked element, ignored
        have humu : u = m := hdist u huS m hmS heq.symm
        subst humu
        have hno : mergeOk s u = false := by
          simp only [mergeOk, hst, hts]
          cases h : isTerminal u.newStatus <;> simp [h]
        have h2 : (applyUpdate s u).2 = s := by
          simp [applyUpdate, hno]
        have hlat : laterUpd u u = u := by
          unfold laterUpd
          rw [if_neg (by omega)]
        rw [hstep, hfold, hlat, h2]
        exact ih hl' s u huS hst hts
      · -- the incoming update is strictly older: it is ignored
        have hno : mergeOk s u = false := by
          have h1 : decide (s.provider_updated_at < u.newUpdatedAt) = false := by
            simp only [decide_eq_false_iff_not]
            omega
          have h2 : decide (s.provider_updated_at ≤ u.newUpdatedAt) = false := by
            simp only [decide_eq_false_iff_not]
            omega
          simp [mergeOk, h1, h2]
        have h2 : (applyUpdate s u).2 = s := by
          simp [applyUpdate, hno]
        have hlat : laterUpd m u = m := by
          unfold laterUpd
          rw [if_neg (by omega)]
        rw [hstep, hfold, hlat, h2]
        exact ih hl' s m hmS hst hts

/-- C4 (amended): last-writer-wins holds once the terminal freeze cannot
interfere. For a record in a non-terminal status and a finite set `S` of
updates with pairwise distinct timestamps, all strictly newer than the
stored `provider_updated_at`, in which any terminal update carries the
greatest timestamp: applying the updates in any order and with any update
possibly repeated (any non-empty list drawing from and covering `S`)
yields the status of the update with the latest `provider_updated_at`. -/
theorem merge_last_writer_wins (rec : ProviderPayment)
    (S l : List MergeUpdate) (w : MergeUpdate)
    (hne : l ≠ [])
    (hls : ∀ u ∈ l, u ∈ S) (hsl : ∀ u ∈ S, u ∈ l)
    (hnt : isTerminal rec.status = false)
    (hts : ∀ u ∈ S, rec.provider_updated_at < u.newUpdatedAt)
    (hdist : ∀ u ∈ S, ∀ v ∈ S, u.newUpdatedAt = v.newUpdatedAt → u = v)
    (hmax : ∀ u ∈ S, ∀ v ∈ S, isTerminal u.newStatus = true →
      v.newUpdatedAt ≤ u.newUpdatedAt)
    (hw : w ∈ S) (hwmax : ∀ v ∈ S, v.newUpdatedAt ≤ w.newUpdatedAt) :
    (applyList rec l).status = w.newStatus := by
  cases l with
  | nil => exact absurd rfl hne
  | cons u l =>
      have huS : u ∈ S := hls u (List.mem_cons_self u l)
      have hl' : ∀ v ∈ l, v ∈ S := fun v hv => hls v (List.mem_cons_of_mem u hv)
      have hok : mergeOk rec u = true := by
        simp only [mergeOk, Bool.and_eq_true, Bool.or_eq_true, decide_eq_true_eq]
        exact ⟨Or.inl (hts u huS), Or.inl (by simp [hnt])⟩
      have h2 : (applyUpdate rec u).2 =
          { rec with
            status := u.newStatus
            provider_updated_at := u.newUpdatedAt
            raw_payload := u.rawPayload } := by
        simp [applyUpdate, hok]
      have hstep : applyList rec (u :: l) = applyList ((applyUpdate rec u).2) l := rfl
      have hmain := applyList_tracks_max S hdist hmax l hl'
        ((applyUpdate rec u).2) u huS (by rw [h2]) (by rw [h2])
      -- identify the tracked maximum with the designated latest update w
      have hmem : maxUpd u l ∈ S := by
        rcases maxUpd_mem u l with h | h
        · rw [h]; exact huS
        · exact hl' _ h
      have hge := maxUpd_ge u l
      have hwin : w ∈ u :: l := hsl w hw
      have hwle : w.newUpdatedAt ≤ (maxUpd u l).newUpdatedAt := by
        rcases List.mem_cons.mp hwin with h | h
        · rw [← h] at hge ⊢
          exact hge.1
        · exact hge.2 w h
      have hmle : (maxUpd u l).newUpdatedAt ≤ w.newUpdatedAt := hwmax _ hmem
      have : maxUpd u l = w := hdist _ hmem w hw (by omega)
      rw [hstep, hmain.1, this]

/-- C4 amended witness: a pending one-time record receives the update set
with a `pending` at timestamp 1 and a terminal `successful` at the latest
timestamp 2, in an order with a repeated element; the final status is the
status of the latest update. -/
theorem merge_last_writer_wins_holds :
    (applyList ⟨.one_time, .pending, 0, ""⟩
        [⟨.pending, 1, "x"⟩, ⟨.successful, 2, "y"⟩, ⟨.pending, 1, "x"⟩]).status =
      PStatus.successful :=
  merge_last_writer_wins ⟨.one_time, .pending, 0, ""⟩
    [⟨.pending, 1, "x"⟩, ⟨.successful, 2, "y"⟩]
    [⟨.pending, 1, "x"⟩, ⟨.successful, 2, "y"⟩, ⟨.pending, 1, "x"⟩]
    ⟨.successful, 2, "y"⟩
    (by decide) (by decide) (by decide) (by decide) (by decide) (by decide)
    (by decide) (by decide) (by decide)

/-! ## Token Ledger (section 4.1 of the design document) -/

/-- Modelled from the spec: a TransactionToken row of the Token Ledger,
with its opaque id, kind, creation time and nullable `consumed_at`
(data model, section 3). -/
structure TransactionToken where
  id : String
  kind : PKind
  created_at : Nat
  consumed_at : Option Nat
deriving DecidableEq, Repr

/-- The Token Ledger store, an association of token rows. -/
abbrev TokenLedger := List TransactionToken

/-- Lookup of a token row by id (first match). -/
def lookupToken : TokenLedger → String → Option TransactionToken
  | [], _ => none
  | t :: ts, i => if t.id = i then some t else lookupToken ts i

/-- Modelled from the spec: the implicit provider-side token expiry,
typically minutes (section 4.1; the integration guide states one-time
transaction tokens stay valid for 5 minutes). -/
def tokenExpirySeconds : Nat := 300

/-- Mark the token with the given id consumed at the given time. -/
def markConsumed (st : TokenLedger) (i : String) (now : Nat) : TokenLedger :=
  st.map (fun t => if t.id = i then { t with consumed_at := some now } else t)

/-- Modelled from the spec: the failure taxonomy of `consume`
(section 4.1 and the `TokenInvalid` taxonomy of section 7: unknown,
already-consumed, expired, wrong-kind). -/
inductive ConsumeError
  | notFound
  | alreadyConsumed
  | expired
  | kindMismatch
deriving DecidableEq, Repr

/-- Modelled from the spec: `consume(tokenId, expectedKind)` of the Token
Ledger (section 4.1). The check and the mark are one atomic step. A second
call with the same token id always fails with `AlreadyConsumed`, so the
consumed check comes first; an attempt after expiry is `Expired`; a kind
mismatch is `KindMismatch`; otherwise the row is marked consumed and the
consumption ticket (the consumed row) is returned. -/
def consume (st : TokenLedger) (tokenId : String) (expectedKind : PKind)
    (now : Nat) : Except ConsumeError TransactionToken × TokenLedger :=
  match lookupToken st tokenId with
  | none => (.error .notFound, st)
  | some t =>
    if t.consumed_at.isSome then (.error .alreadyConsumed, st)
    else if t.created_at + tokenExpirySeconds < now then (.error .expired, st)
    else if t.kind ≠ expectedKind then (.error .kindMismatch, st)
    else (.ok { t with consumed_at := some now }, markConsumed st tokenId now)

/-- One consumption attempt, as scheduled by some interleaving of
concurrent callers: each attempt is one atomic check-and-mark. -/
structure ConsumeCall where
  tokenId : String
  expectedKind : PKind
  now : Nat
deriving DecidableEq, Repr

/-- Run a sequence of consumption attempts against the ledger: the
sequential semantics of any interleaving of atomic `consume` steps. -/
def runConsumes (st : TokenLedger) : List ConsumeCall → TokenLedger
  | [] => st
  | c :: cs => runConsumes (consume st c.tokenId c.expectedKind c.now).2 cs

lemma markConsumed_cons (t : TransactionToken) (ts : TokenLedger) (i : String)
    (now : Nat) :
    markConsumed (t :: ts) i now =
      (if t.id = i then { t with consumed_at := some now } else t) ::
        markConsumed ts i now := by
  simp [markConsumed]

lemma lookupToken_cons (t : TransactionToken) (ts : TokenLedger) (j : String) :
    lookupToken (t :: ts) j = if t.id = j then some t else lookupToken ts j := rfl

lemma lookupToken_markConsumed_other (st : TokenLedger) (i j : String)
    (now : Nat) (hne : j ≠ i) :
    lookupToken (markConsumed st i now) j = lookupToken st j := by
  induction st with
  | nil => rfl
  | cons t ts ih =>
      rw [markConsumed_cons, lookupToken_cons, lookupToken_cons]
      have hid : (if t.id = i then
          ({ t with consumed_at := some now } : TransactionToken) else t).id =
          t.id := by
        by_cases hi : t.id = i
        · rw [if_pos hi]
        · rw [if_neg hi]
      rw [hid]
      by_cases hj : t.id = j
      · rw [if_pos hj, if_pos hj]
        have hi : t.id ≠ i := by
          rw [hj]
          exact hne
        rw [if_neg hi]
      · rw [if_neg hj, if_neg hj]
        exact ih

lemma lookupToken_markConsumed_self (st : TokenLedger) (i : String) (now : Nat)
    (t : TransactionToken) (h : lookupToken st i = some t) :
    lookupToken (markConsumed st i now) i =
      some { t with consumed_at := some now } := by
  induction st with
  | nil => cases h
  | cons a ts ih =>
      rw [lookupToken_cons] at h
      rw [markConsumed_cons, lookupToken_cons]
      have hid : (if a.id = i then
          ({ a with consumed_at := some now } : TransactionToken) else a).id =
          a.id := by
        by_cases hi : a.id = i
        · rw [if_pos hi]
        · rw [if_neg hi]
      rw [hid]
      by_cases hi : a.id = i
      · rw [if_pos hi, if_pos hi]
        rw [if_pos hi] at h
        cases h
        rfl
      · rw [if_neg hi]
        rw [if_neg hi] at h
        exact ih h

lemma lookupToken_id (st : TokenLedger) (i : String) (t : TransactionToken)
    (h : lookupToken st i = some t) : t.id = i := by
  induction st with
  | nil => cases h
  | cons a ts ih =>
      by_cases ha : a.id = i
      · simp [lookupToken, ha] at h
        rw [← h]
        exact ha
      · simp [lookupToken, ha] at h
        exact ih h

/-- A consumed mark is never cleared: any later single consumption step
preserves a set `consumed_at`. -/
lemma consume_preserves_consumed (st : TokenLedger) (i : String)
    (t : TransactionToken) (c : Nat)
    (hl : lookupToken st i = some t) (hc : t.consumed_at = some c)
    (call : ConsumeCall) :
    ∃ t', lookupToken (consume st call.tokenId call.expectedKind call.now).2 i =
        some t' ∧ t'.consumed_at = some c := by
  rcases hlk : lookupToken st call.tokenId with _ | t0
  · refine ⟨t, ?_, hc⟩
    simp [consume, hlk, hl]
  · by_cases h1 : t0.consumed_at.isSome
    · refine ⟨t, ?_, hc⟩
      simp [consume, hlk, h1, hl]
    · by_cases h2 : t0.created_at + tokenExpirySeconds < call.now
      · refine ⟨t, ?_, hc⟩
        simp [consume, hlk, h1, h2, hl]
      · by_cases h3 : t0.kind ≠ call.expectedKind
        · refine ⟨t, ?_, hc⟩
          simp [consume, hlk, h1, h2, h3, hl]
        · -- the consumption succeeds and marks call.tokenId
          have hii : t.id = i := lookupToken_id st i t hl
          have hne : i ≠ call.tokenId := by
            intro hcontra
            rw [hcontra] at hl
            rw [hl] at hlk
            cases hlk
            rw [hc] at h1
            exact h1 rfl
          refine ⟨t, ?_, hc⟩
          have hres : (consume st call.tokenId call.expectedKind call.now).2 =
              markConsumed st call.tokenId call.now := by
            simp [consume, hlk, h1, h2, h3]
          rw [hres, lookupToken_markConsumed_other st call.tokenId i call.now hne,
            hl]

/-- A consumed mark survives any sequence of consumption attempts. -/
lemma runConsumes_preserves_consumed (calls : List ConsumeCall) :
    ∀ (st : TokenLedger) (i : String) (t : TransactionToken) (c : Nat),
      lookupToken st i = some t → t.consumed_at = some c →
      ∃ t', lookupToken (runConsumes st calls) i = some t' ∧
        t'.consumed_at = some c := by
  induction calls with
  | nil =>
      intro st i t c hl hc
      exact ⟨t, hl, hc⟩
  | cons call calls ih =>
      intro st i t c hl hc
      obtain ⟨t', hl', hc'⟩ := consume_preserves_consumed st i t c hl hc call
      exact ih _ i t' c hl' hc'

/-- C5: `consume` succeeds at most once per token id. After a first
successful consumption, no matter which further consumption attempts run
(any interleaving of concurrent callers, each an atomic check-and-mark),
a later call with the same token id fails with `AlreadyConsumed`. -/
theorem consume_at_most_once (st : TokenLedger) (i : String)
    (k k' : PKind) (now now' : Nat) (tk : TransactionToken) (st1 : TokenLedger)
    (h : consume st i k now = (.ok tk, st1)) (calls : List ConsumeCall) :
    (consume (runConsumes st1 calls) i k' now').1 = .error .alreadyConsumed := by
  -- invert the successful first call
  rcases hlk : lookupToken st i with _ | t0
  · simp [consume, hlk] at h
  · by_cases h1 : t0.consumed_at.isSome
    · simp [consume, hlk, h1] at h
    · by_cases h2 : t0.created_at + tokenExpirySeconds < now
      · simp [consume, hlk, h1, h2] at h
      · by_cases h3 : t0.kind ≠ k
        · simp [consume, hlk, h1, h2, h3] at h
        · have hres : st1 = markConsumed st i now := by
            have := h
            simp [consume, hlk, h1, h2, h3] at this
            exact this.2.symm
          have hl1 : lookupToken st1 i = some { t0 with consumed_at := some now } := by
            rw [hres]
            exact lookupToken_markConsumed_self st i now t0 hlk
          obtain ⟨t', hl', hc'⟩ := runConsumes_preserves_consumed calls st1 i
            { t0 with consumed_at := some now } now hl1 rfl
          have : (t').consumed_at.isSome = true := by
            rw [hc']
            rfl
          simp [consume, hl', this]

/-- C5 witness: one concrete token consumed at time 10; a racing second
attempt at time 20 observes `AlreadyConsumed`. -/
theorem consume_at_most_once_holds :
    (consume (runConsumes [⟨"t1", .one_time, 0, some 10⟩]
        [⟨"t1", .one_time, 20⟩]) "t1" .one_time 20).1 =
      .error .alreadyConsumed :=
  consume_at_most_once [⟨"t1", .one_time, 0, none⟩] "t1" .one_time .one_time
    10 20 ⟨"t1", .one_time, 0, some 10⟩ [⟨"t1", .one_time, 0, some 10⟩]
    (by rfl) [⟨"t1", .one_time, 20⟩]

/-! ## Webhook Ingestion (section 4.3 of the design document) -/

/-- Modelled from the spec: the processing status vocabulary of a stored
WebhookEvent, `received | applied | duplicate | rejected` (data model,
section 3). -/
inductive ProcStatus
  | received
  | applied
  | duplicate
  | rejected
deriving DecidableEq, Repr

/-- Modelled from the spec: an inbound provider event delivery, carrying
the provider-assigned event id, the referenced charge or subscription id,
the embedded status and timestamp, the payload, and whether the
shared-secret signature over the raw body verifies. -/
structure InboundEvent where
  id : String
  provider_id : String
  newStatus : PStatus
  newUpdatedAt : Nat
  payload : String
  sigValid : Bool
deriving DecidableEq, Repr

/-- Modelled from the spec: the engine store the webhook handler touches,
the WebhookEvent rows (by event id, with their processing status) and the
ProviderPayment rows (by provider id). -/
structure EngineState where
  events : List (String × ProcStatus)
  payments : List (String × ProviderPayment)
deriving DecidableEq, Repr

/-- Lookup of a stored event processing status by event id. -/
def findEvent : List (String × ProcStatus) → String → Option ProcStatus
  | [], _ => none
  | e :: es, i => if e.1 = i then some e.2 else findEvent es i

/-- Lookup of a ProviderPayment row by provider id. -/
def findPayment : List (String × ProviderPayment) → String → Option ProviderPayment
  | [], _ => none
  | p :: ps, i => if p.1 = i then some p.2 else findPayment ps i

/-- Upsert of a stored event processing status. -/
def setEvent (es : List (String × ProcStatus)) (i : String) (s : ProcStatus) :
    List (String × ProcStatus) :=
  if (findEvent es i).isSome then
    es.map (fun e => if e.1 = i then (i, s) else e)
  else
    es ++ [(i, s)]

/-- Upsert of a ProviderPayment row. -/
def setPayment (ps : List (String × ProviderPayment)) (i : String)
    (p : ProviderPayment) : List (String × ProviderPayment) :=
  if (findPayment ps i).isSome then
    ps.map (fun e => if e.1 = i then (i, p) else e)
  else
    ps ++ [(i, p)]

/-- Modelled from the spec: the webhook handler response,
`Ack | fails(InvalidSignature)` (section 4.3; a malformed body never
reaches this typed stage of the model). -/
inductive IngestResult
  | ack
  | invalidSignature
deriving DecidableEq, Repr

/-- Modelled from the spec: `ingest(rawRequest)` of the Webhook Ingestion
component (section 4.3). Signature verification comes first and a failure
mutates nothing; deduplication by the provider-assigned event id responds
`Ack` immediately when the stored event already reached `applied`;
otherwise the event is applied through the Status Merge Policy and the
stored event is marked `applied` or `rejected` depending on the outcome,
responding `Ack` either way (a stale update is a no-op, not an error). -/
def ingest (st : EngineState) (e : InboundEvent) : IngestResult × EngineState :=
  if e.sigValid = false then (.invalidSignature, st)
  else if findEvent st.events e.id = some .applied then (.ack, st)
  else
    match findPayment st.payments e.provider_id with
    | none => (.ack, { st with events := setEvent st.events e.id .rejected })
    | some p =>
      match applyUpdate p ⟨e.newStatus, e.newUpdatedAt, e.payload⟩ with
      | (.applied, p') =>
          (.ack,
            { events := setEvent st.events e.id .applied
              payments := setPayment st.payments e.provider_id p' })
      | (.ignoredStale, _) =>
          (.ack, { st with events := setEvent st.events e.id .rejected })

/-- C6: deduplication of redelivered webhook events. Once the stored
WebhookEvent with the delivered id has reached `applied`, redelivering the
same event is acknowledged with `Ack` immediately and the whole store
(in particular the referenced ProviderPayment) is left untouched, so a
double delivery produces at most one state transition. -/
theorem duplicate_delivery_no_transition (st : EngineState) (e : InboundEvent)
    (hsig : e.sigValid = true) (hap : findEvent st.events e.id = some .applied) :
    ingest st e = (.ack, st) := by
  rw [ingest, hsig]
  simp [hap]

/-- C6 witness: a concrete double delivery. The first delivery of event
`e1` moves the pending payment `c1` to `successful` and marks `e1`
`applied`; the theorem then yields that the second delivery acknowledges
and leaves the state as it was. -/
theorem duplicate_delivery_no_transition_holds :
    ingest ⟨[("e1", .applied)], [("c1", ⟨.one_time, .successful, 5, "w"⟩)]⟩
        ⟨"e1", "c1", .successful, 5, "w", true⟩ =
      (.ack, ⟨[("e1", .applied)], [("c1", ⟨.one_time, .successful, 5, "w"⟩)]⟩) :=
  duplicate_delivery_no_transition
    ⟨[("e1", .applied)], [("c1", ⟨.one_time, .successful, 5, "w"⟩)]⟩
    ⟨"e1", "c1", .successful, 5, "w", true⟩ rfl rfl

/-- The first delivery of the witness event indeed applies the update and
marks the event `applied`: the deduplicated second delivery of the C6
witness follows a real first transition. -/
lemma first_delivery_applies :
    ingest ⟨[], [("c1", ⟨.one_time, .pending, 0, ""⟩)]⟩
        ⟨"e1", "c1", .successful, 5, "w", true⟩ =
      (.ack, ⟨[("e1", .applied)], [("c1", ⟨.one_time, .successful, 5, "w"⟩)]⟩) := by
  rfl

/-! ## Frontend: 3DS return page (`PaymentsReturnPage`) -/

/-- The value of `sp.get(name) || ''`: a missing query parameter reads as
the empty string. -/
def qGet (v : Option String) : String := v.getD ""

/-- The banner of the return page: a CSS class and a message. -/
structure Banner where
  cls : String
  text : String
deriving DecidableEq, Repr

/-- The `toLowerCase` call of the page, written over the character list so
that it evaluates by kernel reduction. -/
def jsToLower (s : String) : String := ⟨s.data.map Char.toLower⟩

/-- The banner selection of `PaymentsReturnPage`, translated from the
immediately-invoked expression over the `status` query parameter: a green
informational banner for `successful`, a red one for `failed` or `error`,
an amber fallback otherwise; always display copy deferring the final
result to the payments list. -/
def returnBanner (status : String) : Banner :=
  if jsToLower status = "successful" then
    ⟨"border-green-200 bg-green-50 text-green-700",
      "Payment authentication finished successfully. Final status will appear in your payments list."⟩
  else if jsToLower status = "failed" || jsToLower status = "error" then
    ⟨"border-red-200 bg-red-50 text-red-700",
      "Payment authentication failed or was canceled. You can try again."⟩
  else
    ⟨"border-amber-200 bg-amber-50 text-amber-800",
      "You were redirected back from 3-D Secure. We will show the final result in your payments list shortly."⟩

/-- The side effects a page of this frontend can perform besides pure
rendering: a client-side navigation, or an HTTP request to the backend
(the only way any page mutates Payment, ProviderPayment or token
state). -/
inductive BrowserEffect
  | navigate (path : String)
  | httpPost (path : String)
  | httpGet (path : String)
deriving DecidableEq, Repr

/-- Whether an effect can mutate backend state: only POST requests do. -/
def isMutationEffect : BrowserEffect → Bool
  | .httpPost _ => true
  | _ => false

/-- The rendered data of the return page: the banner and the three echoed
query parameters. -/
structure ReturnPageView where
  banner : Banner
  shownChargeId : String
  shownTokenId : String
  shownStatus : String
deriving DecidableEq, Repr

/-- The pure view of `PaymentsReturnPage`: the banner computed from the
`status` parameter and the echoed `univapayChargeId`, `univapayTokenId`
and `status` values. -/
def returnPageView (chargeId tokenId status : Option String) : ReturnPageView :=
  ⟨returnBanner (qGet status), qGet chargeId, qGet tokenId, qGet status⟩

/-- The effects of `PaymentsReturnPage`, translated from its hooks: the
auth guard pushes `/` when no JWT is stored, and the countdown (or the
button) pushes `/payments`. The component performs no fetch and no POST;
the query parameters feed only the pure view above. -/
def returnPageEffects (hasJwt : Bool) (chargeId tokenId status : Option String) :
    List BrowserEffect :=
  (if hasJwt then [] else [.navigate "/"]) ++ [.navigate "/payments"]

/-- C7: the 3DS return page is display-only. Its effect list never
contains a backend mutation, and it is independent of all three query
parameters, `status=successful` included: the redirect status influences
the rendered banner only, never any Payment, ProviderPayment or token
state, whose final value keeps coming from the webhook and poller
paths. -/
theorem return_page_display_only (hasJwt : Bool)
    (chargeId tokenId status chargeId' tokenId' status' : Option String) :
    (returnPageEffects hasJwt chargeId tokenId status).all
        (fun e => !isMutationEffect e) = true ∧
      returnPageEffects hasJwt chargeId tokenId status =
        returnPageEffects hasJwt chargeId' tokenId' status' ∧
      (returnPageView chargeId tokenId (some "successful")).banner.text =
        "Payment authentication finished successfully. Final status will appear in your payments list." := by
  refine ⟨?_, rfl, ?_⟩
  · cases hasJwt <;> rfl
  · show (returnBanner "successful").text =
      "Payment authentication finished successfully. Final status will appear in your payments list."
    decide

/-! ## Frontend: one-time payment submission (`handleOneTimePayment`, `pay`) -/

/-- A JavaScript number as produced by `Number(amount)`: either `NaN` or a
(decimal) numeric value, modelled as a rational. -/
inductive JSNum
  | nan
  | num (q : Rat)
deriving DecidableEq, Repr

/-- `Number.isInteger`: false on `NaN`, true exactly on whole numbers. -/
def jsIsInteger : JSNum → Bool
  | .nan => false
  | .num q => q.den == 1

/-- The comparison `amt <= 0`: every comparison with `NaN` is false. -/
def jsLeZero : JSNum → Bool
  | .nan => false
  | .num q => decide (q ≤ 0)

/-- The numeric value of a non-`NaN` JavaScript number. -/
def jsNumVal : JSNum → Rat
  | .nan => 0
  | .num q => q

/-- The charge payload `handleOneTimePayment` sends once the widget
produced a token: `amount: amt`, `currency: 'JPY'`, and the trimmed item
name in the metadata. -/
structure ChargePayload where
  amount : Rat
  currency : String
  item_name : String
deriving DecidableEq, Repr

/-- The observable outcome of the one-time handler: an error message set
with no widget opened and no request issued, or the widget opened with
the charge payload it will submit. -/
inductive OneTimeOutcome
  | error (msg : String)
  | openWidget (charge : ChargePayload)
deriving DecidableEq, Repr

/-- Translated from `handleOneTimePayment` in the payment page source: the
guards run in order (blank item name, non-positive-integer amount, missing
app token, widget not loaded), each returning after `setError`; only then
is the UnivaPay widget opened with `amount: amt, currency: 'JPY'` and the
charge payload prepared with the same amount and currency. -/
def handleOneTimePayment (itemName : String) (amt : JSNum)
    (hasAppToken widgetReady : Bool) : OneTimeOutcome :=
  if itemName.trim = "" then .error "Item name is required."
  else if !jsIsInteger amt || jsLeZero amt then
    .error "Amount must be a positive integer (JPY)."
  else if !hasAppToken then .error "Missing app token configuration"
  else if !widgetReady then .error "UnivaPay widget is not ready yet."
  else .openWidget ⟨jsNumVal amt, "JPY", itemName.trim⟩

/-- The body `pay` posts to `/api/checkout/charge` once the widget
produced a token id: the amount and the trimmed item name (the backend
fixes the currency for this route). -/
structure ChargeRequest where
  amount : Rat
  item_name : String
deriving DecidableEq, Repr

/-- The observable outcome of `pay` on the buy page. -/
inductive PayOutcome
  | error (msg : String)
  | openWidget (req : ChargeRequest)
deriving DecidableEq, Repr

/-- Translated from `pay` in the buy page source: the same validation
guards as `handleOneTimePayment` (with the app id message of that page),
then the widget opens in tokenization mode and the charge request is
posted with `amount: amt` and the trimmed item name. -/
def pay (itemName : String) (amt : JSNum) (hasAppId widgetReady : Bool) :
    PayOutcome :=
  if itemName.trim = "" then .error "Item name is required."
  else if !jsIsInteger amt || jsLeZero amt then
    .error "Amount must be a positive integer (JPY)."
  else if !hasAppId then .error "Missing NEXT_PUBLIC_UNIVAPAY_APP_ID"
  else if !widgetReady then .error "UnivaPay widget is not ready yet."
  else .openWidget ⟨jsNumVal amt, itemName.trim⟩

/-- C8: the one-time handlers submit only validated charges. Whenever
either handler reaches the widget, the charge it will submit carries a
strictly positive whole-yen amount (denominator 1), with currency
fixed to JPY on the payment page route; and whenever the amount is not a
positive integer or the item name is blank, both handlers set an error
message and stop before the widget or any request. -/
theorem one_time_amount_validated (itemName : String) (amt : JSNum)
    (tok rdy : Bool) :
    (∀ c, handleOneTimePayment itemName amt tok rdy = .openWidget c →
        0 < c.amount ∧ c.amount.den = 1 ∧ c.currency = "JPY") ∧
    (∀ r, pay itemName amt tok rdy = .openWidget r →
        0 < r.amount ∧ r.amount.den = 1) ∧
    ((jsIsInteger amt = false ∨ jsLeZero amt = true ∨ itemName.trim = "") →
      (∃ m, handleOneTimePayment itemName amt tok rdy = .error m) ∧
        (∃ m, pay itemName amt tok rdy = .error m)) := by
  have hguard : ∀ (h1 : itemName.trim ≠ "")
      (h2 : (!jsIsInteger amt || jsLeZero amt) = false),
      0 < jsNumVal amt ∧ (jsNumVal amt).den = 1 := by
    intro h1 h2
    simp only [Bool.or_eq_false_iff, Bool.not_eq_false] at h2
    obtain ⟨hint, hle⟩ := h2
    cases amt with
    | nan => cases hint
    | num q =>
        have hden : q.den = 1 := by
          simpa [jsIsInteger] using hint
        have hpos : ¬ q ≤ 0 := by
          simpa [jsLeZero] using hle
        exact ⟨by simpa [jsNumVal] using lt_of_not_le hpos, hden⟩
  refine ⟨?_, ?_, ?_⟩
  · intro c hc
    by_cases h1 : itemName.trim = ""
    · simp [handleOneTimePayment, h1] at hc
    · by_cases h2 : (!jsIsInteger amt || jsLeZero amt) = true
      · simp [handleOneTimePayment, h1, h2] at hc
      · have h2' : (!jsIsInteger amt || jsLeZero amt) = false := by
          cases h : (!jsIsInteger amt || jsLeZero amt)
          · rfl
          · exact absurd h h2
        by_cases h3 : tok
        · by_cases h4 : rdy
          · have := hguard h1 h2'
            simp [handleOneTimePayment, h1, h2', h3, h4] at hc
            rw [← hc]
            exact ⟨this.1, this.2, rfl⟩
          · simp [handleOneTimePayment, h1, h2', h3, h4] at hc
        · simp [handleOneTimePayment, h1, h2', h3] at hc
  · intro r hr
    by_cases h1 : itemName.trim = ""
    · simp [pay, h1] at hr
    · by_cases h2 : (!jsIsInteger amt || jsLeZero amt) = true
      · simp [pay, h1, h2] at hr
      · have h2' : (!jsIsInteger amt || jsLeZero amt) = false := by
          cases h : (!jsIsInteger amt || jsLeZero amt)
          · rfl
          · exact absurd h h2
        by_cases h3 : tok
        · by_cases h4 : rdy
          · have := hguard h1 h2'
            simp [pay, h1, h2', h3, h4] at hr
            rw [← hr]
            exact ⟨this.1, this.2⟩
          · simp [pay, h1, h2', h3, h4] at hr
        · simp [pay, h1, h2', h3] at hr
  · intro h
    by_cases h1 : itemName.trim = ""
    · exact ⟨⟨"Item name is required.", by simp [handleOneTimePayment, h1]⟩,
        ⟨"Item name is required.", by simp [pay, h1]⟩⟩
    · have h2 : (!jsIsInteger amt || jsLeZero amt) = true := by
        rcases h with h | h | h
        · simp [h]
        · simp [h]
        · exact absurd h h1
      exact ⟨⟨"Amount must be a positive integer (JPY).",
          by simp [handleOneTimePayment, h1, h2]⟩,
        ⟨"Amount must be a positive integer (JPY).", by simp [pay, h1, h2]⟩⟩

/-- The fractional JPY amount three halves, as a concrete rational. -/
def threeHalves : Rat := ⟨3, 2, by decide, by decide⟩

/-- C8 witness: at the fractional amount three halves, both handlers stop
with the validation error before any widget or request. -/
theorem one_time_amount_validated_holds :
    (∃ m, handleOneTimePayment "Book" (.num threeHalves) true true = .error m) ∧
      (∃ m, pay "Book" (.num threeHalves) true true = .error m) :=
  (one_time_amount_validated "Book" (.num threeHalves) true true).2.2
    (Or.inl (by decide))

/-! ## Frontend: subscription submission (`handleSubscription`, `openTokenWidget`) -/

/-- The property names every plain JavaScript object literal inherits from
`Object.prototype` (including the Annex B accessors present in browsers):
bracket access on the literal walks the prototype chain, so these keys
read as the inherited members rather than as `undefined`. -/
def objectProtoKeys : List String :=
  ["constructor", "hasOwnProperty", "isPrototypeOf", "propertyIsEnumerable",
    "toLocaleString", "toString", "valueOf", "__proto__",
    "__defineGetter__", "__defineSetter__", "__lookupGetter__",
    "__lookupSetter__"]

/-- A value read by bracket access from a string-valued object literal: an
own string property, an inherited `Object.prototype` member (a function or
object, hence truthy), or `undefined`. -/
inductive JsLookup
  | str (s : String)
  | inherited
  | undefinedJs
deriving DecidableEq, Repr

/-- A value read by bracket access from a number-valued object literal. -/
inductive JsNumLookup
  | numv (n : Nat)
  | inherited
  | undefinedJs
deriving DecidableEq, Repr

/-- JavaScript truthiness of a looked-up value: a string is truthy unless
empty, an inherited function or object is truthy, `undefined` is falsy. -/
def jsTruthy : JsLookup → Bool
  | .str s => !(s == "")
  | .inherited => true
  | .undefinedJs => false

/-- The lookup `periodMap[plan]` on the object literal of both
subscription handlers: the own keys `monthly` and `6months`, then the
inherited `Object.prototype` members, then `undefined`. -/
def periodMap (plan : String) : JsLookup :=
  if plan = "monthly" then .str "monthly"
  else if plan = "6months" then .str "semiannually"
  else if plan ∈ objectProtoKeys then .inherited
  else .undefinedJs

/-- The lookup `amountMap[plan]` on the object literal of
`handleSubscription` on the payment page, with the same prototype
chain. -/
def amountMap (plan : String) : JsNumLookup :=
  if plan = "monthly" then .numv 10000
  else if plan = "6months" then .numv 58000
  else if plan ∈ objectProtoKeys then .inherited
  else .undefinedJs

/-- The subscription body `handleSubscription` sends after tokenization:
the looked-up plan amount, the fixed JPY currency, and the looked-up
period. -/
structure SubscriptionPayload where
  amount : JsNumLookup
  currency : String
  period : JsLookup
deriving DecidableEq, Repr

/-- The observable outcome of `handleSubscription`: a silent early return
(while loading), an error message, or the widget opened with the
subscription payload it will submit. -/
inductive SubOutcome
  | noop
  | error (msg : String)
  | openWidget (sub : SubscriptionPayload)
deriving DecidableEq, Repr

/-- Translated from `handleSubscription` in the payment page source: an
early return while loading, guards for the app token and the widget
script, then `period = periodMap[plan]` and `planAmount = amountMap[plan]`
are read by bracket access; `if (!period)` stops with the error
`Invalid plan` only when the looked-up period is falsy, and otherwise the
widget opens and the amount, JPY and period are submitted. -/
def handleSubscription (plan : String) (loading hasAppToken widgetReady : Bool) :
    SubOutcome :=
  if loading then .noop
  else if !hasAppToken then .error "Missing app token configuration"
  else if !widgetReady then .error "UnivaPay widget is not ready yet."
  else if !(jsTruthy (periodMap plan)) then .error "Invalid plan"
  else .openWidget ⟨amountMap plan, "JPY", periodMap plan⟩

/-- The observable outcome of `openTokenWidget` on the subscribe page:
this page posts only the token id, the plan and the redirect endpoint to
the backend, so the widget outcome carries the looked-up period and the
plan. -/
inductive TokenWidgetOutcome
  | noop
  | error (msg : String)
  | openWidget (period : JsLookup) (plan : String)
deriving DecidableEq, Repr

/-- Translated from `openTokenWidget` in the subscribe page source: the
same loading, app id and widget guards, then `period = periodMap[plan]`
by bracket access, with `if (!period)` stopping on a falsy value only. -/
def openTokenWidget (plan : String) (loading hasAppId widgetReady : Bool) :
    TokenWidgetOutcome :=
  if loading then .noop
  else if !hasAppId then .error "Missing NEXT_PUBLIC_UNIVAPAY_APP_ID"
  else if !widgetReady then .error "UnivaPay widget is not ready yet."
  else if !(jsTruthy (periodMap plan)) then .error "Invalid plan"
  else .openWidget (periodMap plan) plan

/-- C9 (counterexample): the plan `toString` is neither `monthly` nor
`6months`, yet bracket access finds the inherited, truthy
`Object.prototype.toString`, so `if (!period)` does not fire: both
handlers open the widget with the inherited values instead of setting the
error `Invalid plan`. -/
theorem subscription_prototype_leak :
    handleSubscription "toString" false true true =
        .openWidget ⟨.inherited, "JPY", .inherited⟩ ∧
      openTokenWidget "toString" false true true =
        .openWidget .inherited "toString" ∧
      handleSubscription "toString" false true true ≠ .error "Invalid plan" ∧
      openTokenWidget "toString" false true true ≠ .error "Invalid plan" := by
  decide

/-- C9 (amended): with the page ready, `monthly` opens the widget with
period `monthly` and amount 10000 JPY and `6months` with period
`semiannually` and amount 58000 JPY; every other plan that is not the name
of an inherited `Object.prototype` member stops both handlers with the
error `Invalid plan` before the widget; and a plan reaching the widget is
`monthly`, `6months`, or one of the inherited property names, whatever
the page state. -/
theorem subscription_plans (plan : String) :
    handleSubscription "monthly" false true true =
        .openWidget ⟨.numv 10000, "JPY", .str "monthly"⟩ ∧
      handleSubscription "6months" false true true =
        .openWidget ⟨.numv 58000, "JPY", .str "semiannually"⟩ ∧
      openTokenWidget "monthly" false true true =
        .openWidget (.str "monthly") "monthly" ∧
      openTokenWidget "6months" false true true =
        .openWidget (.str "semiannually") "6months" ∧
      (plan ≠ "monthly" → plan ≠ "6months" → plan ∉ objectProtoKeys →
        handleSubscription plan false true true = .error "Invalid plan" ∧
          openTokenWidget plan false true true = .error "Invalid plan") ∧
      (∀ (loading tok rdy : Bool) (p : SubscriptionPayload),
        handleSubscription plan loading tok rdy = .openWidget p →
          plan = "monthly" ∨ plan = "6months" ∨ plan ∈ objectProtoKeys) := by
  have hmap : ∀ q : String, q ≠ "monthly" → q ≠ "6months" →
      q ∉ objectProtoKeys → periodMap q = .undefinedJs := by
    intro q h1 h2 h3
    unfold periodMap
    rw [if_neg h1, if_neg h2, if_neg h3]
  refine ⟨rfl, rfl, rfl, rfl, ?_, ?_⟩
  · intro h1 h2 h3
    constructor
    · simp [handleSubscription, hmap plan h1 h2 h3, jsTruthy]
    · simp [openTokenWidget, hmap plan h1 h2 h3, jsTruthy]
  · intro loading tok rdy p hp
    by_cases h1 : plan = "monthly"
    · exact Or.inl h1
    by_cases h2 : plan = "6months"
    · exact Or.inr (Or.inl h2)
    by_cases h3 : plan ∈ objectProtoKeys
    · exact Or.inr (Or.inr h3)
    exfalso
    by_cases hl : loading
    · simp [handleSubscription, hl] at hp
    · by_cases ht : tok
      · by_cases hr : rdy
        · simp [handleSubscription, hl, ht, hr, hmap plan h1 h2 h3, jsTruthy] at hp
        · simp [handleSubscription, hl, ht, hr] at hp
      · simp [handleSubscription, hl, ht] at hp

/-- C9 amended witness: the unknown plan `yearly`, which names no
inherited member, stops both handlers with `Invalid plan`. -/
theorem subscription_plans_holds :
    handleSubscription "yearly" false true true = .error "Invalid plan" ∧
      openTokenWidget "yearly" false true true = .error "Invalid plan" :=
  (subscription_plans "yearly").2.2.2.2.1 (by decide) (by decide) (by decide)

/-! ## Frontend: the authenticated POST helper (`postWithAuth`) -/

/-- The parsed JSON body as far as `postWithAuth` inspects it: its `error`
field, if any. -/
structure ParsedBody where
  errorField : Option String
deriving DecidableEq, Repr

/-- An HTTP response as `postWithAuth` observes it: the `ok` flag, and the
result of `res.json()` (`none` when the body does not parse). -/
structure HttpResponse where
  ok : Bool
  body : Option ParsedBody
deriving DecidableEq, Repr

/-- The JavaScript expression `data.error || 'Request failed'`: the
fallback is used when the field is absent or falsy (the empty string). -/
def jsOrDefault : Option String → String → String
  | some s, d => if s = "" then d else s
  | none, d => d

/-- The observable outcome of `postWithAuth`: an error thrown before any
fetch, an error thrown after the fetch, or the parsed body returned. -/
inductive PostResult
  | thrownNoRequest (msg : String)
  | thrown (msg : String)
  | value (data : ParsedBody)
deriving DecidableEq, Repr

/-- Translated from `postWithAuth` in `lib/api.js`: without a stored token
it throws `Not authenticated` before any fetch; otherwise the response
body is parsed with an empty-object fallback, a non-ok response throws
`data.error || 'Request failed'`, and an ok response returns the parsed
data. -/
def postWithAuth (storedToken : Option String) (resp : HttpResponse) :
    PostResult :=
  match storedToken with
  | none => .thrownNoRequest "Not authenticated"
  | some _ =>
    let data := resp.body.getD ⟨none⟩
    if resp.ok then .value data
    else .thrown (jsOrDefault data.errorField "Request failed")

/-- C10 (counterexample): a non-ok response whose parsed body carries the
empty-string `error` field throws `Request failed`, not the error field
itself, because the JavaScript fallback `data.error || ...` also fires on
a falsy empty string. -/
theorem postWithAuth_empty_error_field :
    postWithAuth (some "jwt") ⟨false, some ⟨some ""⟩⟩ = .thrown "Request failed" ∧
      "Request failed" ≠ "" := by
  decide

/-- C10 (amended): `postWithAuth` throws `Not authenticated` with no fetch
when no token is stored; on an ok response it returns the parsed body with
the empty object standing in for an unparseable one; on a non-ok response
it throws the `error` field when that field is present and non-empty, and
`Request failed` when the field is absent, empty, or the body did not
parse. -/
theorem postWithAuth_spec (tok : Option String) (resp : HttpResponse) :
    (tok = none → postWithAuth tok resp = .thrownNoRequest "Not authenticated") ∧
      (tok ≠ none → resp.ok = true →
        postWithAuth tok resp = .value (resp.body.getD ⟨none⟩)) ∧
      (∀ s, tok ≠ none → resp.ok = false → resp.body = some ⟨some s⟩ → s ≠ "" →
        postWithAuth tok resp = .thrown s) ∧
      (tok ≠ none → resp.ok = false →
        (resp.body = none ∨ resp.body = some ⟨none⟩ ∨ resp.body = some ⟨some ""⟩) →
        postWithAuth tok resp = .thrown "Request failed") := by
  refine ⟨?_, ?_, ?_, ?_⟩
  · intro h
    rw [h]
    rfl
  · intro ht hok
    rcases tok with _ | t
    · exact absurd rfl ht
    · simp [postWithAuth, hok]
  · intro s ht hok hb hs
    rcases tok with _ | t
    · exact absurd rfl ht
    · simp [postWithAuth, hok, hb, jsOrDefault, hs]
  · intro ht hok hb
    rcases tok with _ | t
    · exact absurd rfl ht
    · rcases hb with hb | hb | hb <;> simp [postWithAuth, hok, hb, jsOrDefault]

/-- C10 amended witness: with a stored token, a non-ok response whose body
carries the error message `boom` throws exactly `boom`. -/
theorem postWithAuth_spec_holds :
    postWithAuth (some "jwt") ⟨false, some ⟨some "boom"⟩⟩ = .thrown "boom" :=
  (postWithAuth_spec (some "jwt") ⟨false, some ⟨some "boom"⟩⟩).2.2.1 "boom"
    (by decide) rfl rfl (by decide)
